import Mathlib

/-!
Verification of the tofn threshold-signing library (GG20 + Ed25519 primitive)
against its natural-language specification.

Shallow embedding conventions:
* machine integers and big integers are `Nat` (or `Int` where the source type
  is signed) with explicit `% 2^w` / `% q` where reduction matters;
* byte strings are `List Nat` whose elements are `< 256`;
* fallible Rust functions returning `TofnResult<T>` become
  `Except TofnFatal T`;
* external collaborators that the spec declares out of scope (the
  deterministic RNG seeder, the `der` codec, the `ed25519_dalek` curve
  library, `bincode`, the `curv`/`k256` curve wrappers, the hash-commitment
  and VSS helpers) are modelled from the spec where noted, faithfully to
  the interfaces the core consumes.
-/

set_option maxRecDepth 8000

/-- The fatal, non-attributable error of the library (Rust `TofnFatal`,
a unit struct). -/
inductive TofnFatal where
  | mk
deriving DecidableEq, Repr

/-- Rust `TofnResult<T> = Result<T, TofnFatal>`. -/
abbrev TofnResult (α : Type) : Type := Except TofnFatal α

instance {α : Type} [DecidableEq α] : DecidableEq (TofnResult α) := fun a b =>
  match a, b with
  | .error .mk, .error .mk => isTrue rfl
  | .ok x, .ok y =>
    if h : x = y then isTrue (by rw [h])
    else isFalse (fun hc => by cases hc; exact h rfl)
  | .error _, .ok _ => isFalse (fun hc => by cases hc)
  | .ok _, .error _ => isFalse (fun hc => by cases hc)

/-! ## Byte-string helpers -/

/-- Little-endian byte decomposition: `natToBytesLE n x` is the `n`-byte
little-endian encoding of `x % 2^(8*n)`. -/
def natToBytesLE : Nat → Nat → List Nat
  | 0, _ => []
  | n + 1, x => (x % 256) :: natToBytesLE n (x / 256)

/-- Little-endian byte recomposition. -/
def bytesToNatLE : List Nat → Nat
  | [] => 0
  | b :: bs => b + 256 * bytesToNatLE bs

theorem natToBytesLE_length (n x : Nat) : (natToBytesLE n x).length = n := by
  induction n generalizing x with
  | zero => rfl
  | succ n ih => simp [natToBytesLE, ih]

theorem bytesToNatLE_natToBytesLE (n x : Nat) (h : x < 2 ^ (8 * n)) :
    bytesToNatLE (natToBytesLE n x) = x := by
  induction n generalizing x with
  | zero =>
    simp [natToBytesLE, bytesToNatLE]
    omega
  | succ n ih =>
    have hdiv : x / 256 < 2 ^ (8 * n) := by
      have h256 : (256 : Nat) = 2 ^ 8 := by norm_num
      have : x < 2 ^ (8 * n) * 256 := by
        rw [h256, ← pow_add]
        have : 8 * n + 8 = 8 * (n + 1) := by ring
        rw [this]; exact h
      omega
    simp [natToBytesLE, bytesToNatLE, ih _ hdiv]
    omega

theorem bytesToNatLE_append_single (xs : List Nat) (c : Nat) :
    bytesToNatLE (xs ++ [c]) = bytesToNatLE xs + c * 256 ^ xs.length := by
  induction xs with
  | nil => simp [bytesToNatLE]
  | cons b bs ih =>
    simp [bytesToNatLE, ih]
    ring

theorem bytesToNatLE_append (xs ys : List Nat) :
    bytesToNatLE (xs ++ ys) = bytesToNatLE xs + 256 ^ xs.length * bytesToNatLE ys := by
  induction xs with
  | nil => simp [bytesToNatLE]
  | cons b bs ih =>
    simp [bytesToNatLE, ih, pow_succ]
    ring

theorem getD_append_length {α : Type} (xs ys : List α) (j : Nat) (d : α) :
    (xs ++ ys).getD (j + xs.length) d = ys.getD j d := by
  induction xs with
  | nil => simp
  | cons x xs ih =>
    show List.getD (x :: (xs ++ ys)) (j + xs.length + 1) d = ys.getD j d
    rw [List.getD_cons_succ]
    exact ih

theorem set_append_length {α : Type} (xs ys : List α) (j : Nat) (b : α) :
    (xs ++ ys).set (j + xs.length) b = xs ++ ys.set j b := by
  induction xs with
  | nil => simp
  | cons x xs ih =>
    show (x :: (xs ++ ys)).set (j + xs.length + 1) b = x :: (xs ++ ys.set j b)
    rw [List.set_cons_succ]
    rw [ih]

theorem take_getD_drop {α : Type} (l : List α) (j : Nat) (d : α)
    (h : j < l.length) :
    l = l.take j ++ l.getD j d :: l.drop (j + 1) := by
  induction l generalizing j with
  | nil => simp at h
  | cons x xs ih =>
    cases j with
    | zero => simp
    | succ j =>
      have hx : j < xs.length := by
        simp at h
        omega
      simp only [List.take_succ_cons, List.getD_cons_succ, List.drop_succ_cons,
        List.cons_append]
      conv_lhs => rw [ih j hx]

/-! ## `member_of_mul_group`
(src/gg20/crypto_tools/paillier/zk/utils.rs)

`BigNumber` is an arbitrary-precision signed integer, embedded as `Int`;
`x.gcd(n)` is the (nonnegative) gcd, embedded as `Int.gcd` (a `Nat`). -/

namespace PaillierZk

/-- Embedding of `member_of_mul_group` from
src/gg20/crypto_tools/paillier/zk/utils.rs: returns `false` when
`x < 1 || x >= n`, then `false` when `gcd(x, n) != 1`, else `true`. -/
def member_of_mul_group (x n : Int) : Bool :=
  if x < 1 || x ≥ n then
    false
  else if !(Int.gcd x n == 1) then
    false
  else
    true

end PaillierZk

/-! ## `serialize`
(src/refactor/sdk/implementer_api/utils.rs)

The underlying codec (`bincode::serialize`) is an external collaborator; the
spec requires only a self-delimiting binary format. It is embedded as an
arbitrary function `enc : α → Option (List Nat)`, `none` standing for a
serialization failure. -/

namespace Sdk

/-- Embedding of `serialize` from src/refactor/sdk/implementer_api/utils.rs:
match on the underlying serializer, `Ok(bytes) => Ok(bytes)`,
`Err(_) => Err(TofnFatal)` (after logging, which has no effect on the
result). -/
def serialize {α : Type} (enc : α → Option (List Nat)) (value : α) :
    TofnResult (List Nat) :=
  match enc value with
  | some bytes => .ok bytes
  | none => .error .mk

end Sdk

/-! ## The Ed25519 primitive (src/ed25519/mod.rs)

The module's own logic (DER wrapping, algorithm check, error routing) is
embedded directly from src/ed25519/mod.rs. Its collaborators are external
libraries that the spec treats as black boxes; they are modelled as follows:

* `ed25519_dalek`: honest keys and signatures live in the prime-order
  subgroup generated by the basepoint `B`, a cyclic group of prime order
  `L`; the subgroup is modelled as `Nat` arithmetic `% L` with `B = 1`
  (exponent representation). SHA-512-based scalar derivations are modelled
  by the stand-in `modelHash` — every theorem below holds for any choice of
  that function. `verify_strict`'s small-order-point rejection is not
  modelled (the subgroup model has no small-order elements).
* the `der` codec: DER with short-form lengths (every length arising from a
  76-byte Ed25519 signature is `< 0x80`, where DER mandates short form).
* `rng_seed_signing_key`: out of scope per the spec; modelled as seeding
  from precisely the domain-separated concatenation
  `(tag, subtag, key, nonce)`.
-/

namespace Ed25519

/-- Order of the Ed25519 prime-order subgroup:
`2^252 + 27742317777372353535851937790883648493`. -/
def L : Nat := 2 ^ 252 + 27742317777372353535851937790883648493

/-- Modelled from the spec: stand-in for the SHA-512-based derivations of
`ed25519_dalek` (external, out of scope per the spec). The claims hold for
every choice of this function. -/
def modelHash (bytes : List Nat) : Nat :=
  bytes.foldl (fun a b => (a * 256 + b + 1) % 2 ^ 512) 1

/-- Modelled from the spec: the seed material consumed by the external
deterministic RNG seeder `rng_seed_signing_key(tag, subtag, key, nonce)` —
the domain-separated concatenation of exactly its four arguments. -/
def seedInput (tag subtag : Nat) (key nonce : List Nat) : List Nat :=
  tag :: subtag :: (key ++ nonce)

/-- Modelled from the spec: the 32-byte RNG output used as the Ed25519
signing-key seed. -/
def rngBytes (input : List Nat) : List Nat :=
  natToBytesLE 32 (modelHash input)

/-- Constant `ED25519_TAG` domain tag (crate::constants, not under src/; modelled
from the spec as an opaque byte constant — the claims hold for any value). -/
def ED25519_TAG : Nat := 0x04

/-- Constant `KEYGEN_TAG = 0x00` (src/ed25519/mod.rs line 75). -/
def KEYGEN_TAG : Nat := 0x00

/-- Model of `ed25519_dalek::SigningKey`: the expanded secret scalar and the
deterministic-nonce half of the expanded seed. -/
structure KeyPair where
  scalar : Nat
  prefixBytes : List Nat
deriving DecidableEq

/-- Modelled from the spec: seed expansion of `SigningKey::generate` —
derives the secret scalar and nonce material from the 32-byte seed. -/
def keyPairOfSeed (seed : List Nat) : KeyPair :=
  { scalar := modelHash (0 :: seed) % L
    prefixBytes := natToBytesLE 32 (modelHash (1 :: seed)) }

/-- Embedding of `keygen` (src/ed25519/mod.rs lines 29-39): seed the RNG from
`(ED25519_TAG, KEYGEN_TAG, secret_recovery_key, session_nonce)`, generate a
signing key. -/
def keygen (secret_recovery_key : List Nat) (session_nonce : List Nat) :
    TofnResult KeyPair :=
  .ok (keyPairOfSeed (rngBytes
    (seedInput ED25519_TAG KEYGEN_TAG secret_recovery_key session_nonce)))

/-- Embedding of `KeyPair::encoded_verifying_key`: the 32-byte encoding of
the public point `A = scalar · B`. -/
def KeyPair.encoded_verifying_key (kp : KeyPair) : List Nat :=
  natToBytesLE 32 (kp.scalar % L)

/-- The reduced secret scalar `a`. -/
def secretScalar (kp : KeyPair) : Nat := kp.scalar % L

/-- The deterministic per-message nonce scalar `r = H(prefix ‖ digest)`. -/
def nonceScalar (kp : KeyPair) (digest : List Nat) : Nat :=
  modelHash (kp.prefixBytes ++ digest) % L

/-- The encoding of the commitment point `R = r·B`. -/
def capRBytesOf (kp : KeyPair) (digest : List Nat) : List Nat :=
  natToBytesLE 32 (nonceScalar kp digest)

/-- The Fiat-Shamir challenge `k = H(enc R ‖ enc A ‖ digest)`. -/
def challenge (kp : KeyPair) (digest : List Nat) : Nat :=
  modelHash (capRBytesOf kp digest ++ kp.encoded_verifying_key ++ digest) % L

/-- The response scalar `S = (r + k·a) mod L`. -/
def sScalar (kp : KeyPair) (digest : List Nat) : Nat :=
  (nonceScalar kp digest + challenge kp digest * secretScalar kp) % L

/-- Modelled from the spec: the raw 64-byte EdDSA signature produced by
`ed25519_dalek`'s `Signer::sign` — `enc R ‖ enc S`. -/
def rawSign (kp : KeyPair) (digest : List Nat) : List Nat :=
  capRBytesOf kp digest ++ natToBytesLE 32 (sScalar kp digest)

/-! ### DER encoding (model of the `der` crate, short-form lengths) -/

/-- DER TLV with a short-form length octet (valid model for contents shorter
than 0x80 bytes, which DER requires to use the short form). -/
def encodeTLV (tag : Nat) (content : List Nat) : List Nat :=
  tag :: content.length :: content

/-- Content octets of OBJECT IDENTIFIER 1.3.101.112 (id-Ed25519). -/
def ALGORITHM_OID : List Nat := [0x2B, 0x65, 0x70]

/-- DER encoding of the ed25519 `AlgorithmIdentifier`:
`SEQUENCE { OID 1.3.101.112 }`, no parameters. -/
def algorithmIdDer : List Nat := encodeTLV 0x30 (encodeTLV 0x06 ALGORITHM_OID)

/-- DER BIT STRING with 0 unused bits. -/
def encodeBitString (bytes : List Nat) : List Nat :=
  encodeTLV 0x03 (0x00 :: bytes)

/-- DER encoding of `Asn1Signature` (src/ed25519/mod.rs lines 88-93):
`SEQUENCE { AlgorithmIdentifier, BIT STRING }`. -/
def asn1SignatureToDer (raw : List Nat) : List Nat :=
  encodeTLV 0x30 (algorithmIdDer ++ encodeBitString raw)

/-- Embedding of `sign` (src/ed25519/mod.rs lines 42-51): raw EdDSA
signature wrapped as `Asn1Signature { ALGORITHM_ID, BIT STRING }.to_der()`.
The `try_into` on the 64-byte signature and `to_der` cannot fail on this
fixed-shape value. -/
def sign (signing_key : KeyPair) (message_digest : List Nat) :
    TofnResult (List Nat) :=
  .ok (asn1SignatureToDer (rawSign signing_key message_digest))

/-- A parsed `AlgorithmIdentifierRef`: OID content octets plus any trailing
parameter octets (empty for absent parameters). -/
structure AlgId where
  oid : List Nat
  params : List Nat
deriving DecidableEq

/-- Constant `ed25519::pkcs8::ALGORITHM_ID`: OID 1.3.101.112, no parameters. -/
def ALGORITHM_ID : AlgId := ⟨ALGORITHM_OID, []⟩

/-- Model of a DER TLV read with a short-form length octet: returns
(tag, content, remaining). Long-form lengths are rejected — for the
contents reachable here (< 0x80 bytes) DER mandates the short form, so the
`der` crate rejects long-form encodings of them as non-canonical too. -/
def readTLV : List Nat → Option (Nat × List Nat × List Nat)
  | t :: l :: rest =>
    if l < 128 ∧ l ≤ rest.length then some (t, rest.take l, rest.drop l)
    else none
  | _ => none

/-- Model of `Asn1Signature::from_der`: outer SEQUENCE consuming the whole
input, inner `AlgorithmIdentifier` SEQUENCE holding an OID plus optional
parameters, then a BIT STRING whose first content octet is the unused-bit
count (at most 7, and 0 when the bit string is empty). -/
def fromDer (bytes : List Nat) : Option (AlgId × List Nat) :=
  match readTLV bytes with
  | none => none
  | some (t, content, rest) =>
    if t = 0x30 ∧ rest = [] then
      match readTLV content with
      | none => none
      | some (t2, algContent, rest2) =>
        if t2 = 0x30 then
          match readTLV algContent with
          | none => none
          | some (t3, oidBytes, paramsBytes) =>
            if t3 = 0x06 then
              match readTLV rest2 with
              | none => none
              | some (t4, bsContent, rest3) =>
                if t4 = 0x03 ∧ rest3 = [] then
                  match bsContent with
                  | [] => none
                  | ub :: raw =>
                    if ub ≤ 7 ∧ (raw = [] → ub = 0) then
                      some (⟨oidBytes, paramsBytes⟩, raw)
                    else none
                else none
            else none
        else none
    else none

/-- Model of `VerifyingKey::from_bytes`: decode the 32-byte little-endian
encoding of a subgroup point; fails on undecodable encodings. -/
def pointDecode (bytes : List Nat) : Option Nat :=
  if bytes.length = 32 ∧ bytesToNatLE bytes < L then some (bytesToNatLE bytes)
  else none

/-- Modelled from the spec: `ed25519_dalek`'s `verify_strict` — reject a
non-decodable `R`, reject a non-canonical `S` (`S ≥ L`), then check the
EdDSA equation `S·B = R + k·A` with `k = H(enc R ‖ enc A ‖ digest)`. -/
def verifyStrict (pubPoint : Nat) (vkBytes digest raw : List Nat) : Bool :=
  let capRBytes := raw.take 32
  let sBytes := raw.drop 32
  let rInt := bytesToNatLE capRBytes
  let sInt := bytesToNatLE sBytes
  if L ≤ rInt then false
  else if L ≤ sInt then false
  else
    let k := modelHash (capRBytes ++ vkBytes ++ digest) % L
    sInt % L == (rInt + k * pubPoint) % L

/-- Embedding of `verify` (src/ed25519/mod.rs lines 53-72): decode the
verifying key (`Err(TofnFatal)` on failure), parse the DER signature
(`Err(TofnFatal)` on failure), reject a non-ed25519 algorithm identifier
(`Err(TofnFatal)`), reject an inner signature that is not 64 bytes
(`Err(TofnFatal)` from `Signature::from_slice`), then return
`Ok(verify_strict(...).is_ok())`. -/
def verify (encoded_verifying_key : List Nat) (message_digest : List Nat)
    (encoded_signature : List Nat) : TofnResult Bool :=
  match pointDecode encoded_verifying_key with
  | none => .error .mk
  | some pubPoint =>
    match fromDer encoded_signature with
    | none => .error .mk
    | some (alg, raw) =>
      if alg ≠ ALGORITHM_ID then .error .mk
      else if raw.length ≠ 64 then .error .mk
      else .ok (verifyStrict pubPoint encoded_verifying_key message_digest raw)

end Ed25519

/-! ### Ed25519 helper lemmas -/

theorem natToBytesLE_succ_concat (n x : Nat) :
    natToBytesLE (n + 1) x = natToBytesLE n x ++ [x / 256 ^ n % 256] := by
  induction n generalizing x with
  | zero => simp [natToBytesLE]
  | succ n ih =>
    show (x % 256) :: natToBytesLE (n + 1) (x / 256) = _
    rw [ih (x / 256)]
    simp [natToBytesLE, Nat.div_div_eq_div_mul, ← pow_succ']

theorem bytesToNatLE_natToBytesLE_mod (n x : Nat) :
    bytesToNatLE (natToBytesLE n x) = x % 256 ^ n := by
  induction n generalizing x with
  | zero => simp [natToBytesLE, bytesToNatLE, Nat.mod_one]
  | succ n ih =>
    rw [pow_succ', Nat.mod_mul]
    simp [natToBytesLE, bytesToNatLE, ih]

namespace Ed25519

theorem L_pos : 0 < L := by norm_num [L]

theorem L_lt_byte32 : L < 256 ^ 32 := by norm_num [L]

theorem rawSign_length (kp : KeyPair) (digest : List Nat) :
    (rawSign kp digest).length = 64 := by
  simp [rawSign, capRBytesOf, natToBytesLE_length]

theorem secretScalar_lt (kp : KeyPair) : secretScalar kp < L :=
  Nat.mod_lt _ L_pos

theorem nonceScalar_lt (kp : KeyPair) (digest : List Nat) :
    nonceScalar kp digest < L := Nat.mod_lt _ L_pos

theorem sScalar_lt (kp : KeyPair) (digest : List Nat) :
    sScalar kp digest < L := Nat.mod_lt _ L_pos

theorem pointDecode_encoded_verifying_key (kp : KeyPair) :
    pointDecode kp.encoded_verifying_key = some (secretScalar kp) := by
  have h1 : bytesToNatLE (natToBytesLE 32 (kp.scalar % L)) = kp.scalar % L := by
    rw [bytesToNatLE_natToBytesLE_mod,
      Nat.mod_eq_of_lt (lt_trans (Nat.mod_lt _ L_pos) L_lt_byte32)]
  unfold pointDecode KeyPair.encoded_verifying_key secretScalar
  rw [if_pos ⟨natToBytesLE_length 32 _, by rw [h1]; exact Nat.mod_lt _ L_pos⟩, h1]

theorem verifyStrict_append (pubPoint : Nat) (vkBytes digest capR rest : List Nat)
    (h : capR.length = 32) :
    verifyStrict pubPoint vkBytes digest (capR ++ rest) =
      (if L ≤ bytesToNatLE capR then false
       else if L ≤ bytesToNatLE rest then false
       else (bytesToNatLE rest % L ==
         (bytesToNatLE capR + (modelHash (capR ++ vkBytes ++ digest) % L) * pubPoint) % L)) := by
  unfold verifyStrict
  rw [List.take_left' h, List.drop_left' h]

theorem readTLV_cons (t l : Nat) (rest : List Nat) :
    readTLV (t :: l :: rest) =
      if l < 128 ∧ l ≤ rest.length then some (t, rest.take l, rest.drop l)
      else none := rfl

theorem readTLV_append (t : Nat) (content rest : List Nat)
    (h : content.length < 128) :
    readTLV (t :: content.length :: (content ++ rest)) = some (t, content, rest) := by
  rw [readTLV_cons, if_pos ⟨h, by simp⟩, List.take_left, List.drop_left]

theorem readTLV_append' (t l : Nat) (content rest : List Nat)
    (hl : content.length = l) (h : l < 128) :
    readTLV (t :: l :: (content ++ rest)) = some (t, content, rest) := by
  subst hl
  exact readTLV_append t content rest h

theorem asn1SignatureToDer_eq (raw : List Nat) (h : raw.length = 64) :
    asn1SignatureToDer raw =
      0x30 :: 0x4A :: 0x30 :: 0x05 :: 0x06 :: 0x03 :: 0x2B :: 0x65 :: 0x70 ::
        0x03 :: 0x41 :: 0x00 :: raw := by
  simp [asn1SignatureToDer, encodeTLV, algorithmIdDer, encodeBitString,
    ALGORITHM_OID, h]

theorem fromDer_asn1SignatureToDer (raw : List Nat) (h : raw.length = 64) :
    fromDer (asn1SignatureToDer raw) = some (ALGORITHM_ID, raw) := by
  have h1 : readTLV (asn1SignatureToDer raw) =
      some (0x30, [0x30, 0x05, 0x06, 0x03, 0x2B, 0x65, 0x70] ++
        (0x03 :: 0x41 :: 0x00 :: raw), []) := by
    rw [asn1SignatureToDer_eq raw h]
    have hshape : (0x30 : Nat) :: 0x4A :: 0x30 :: 0x05 :: 0x06 :: 0x03 :: 0x2B ::
        0x65 :: 0x70 :: 0x03 :: 0x41 :: 0x00 :: raw =
        0x30 :: 0x4A :: (([0x30, 0x05, 0x06, 0x03, 0x2B, 0x65, 0x70] ++
          (0x03 :: 0x41 :: 0x00 :: raw)) ++ []) := by
      simp
    rw [hshape]
    exact readTLV_append' _ _ _ _ (by simp [h]) (by norm_num)
  have h2 : readTLV ([0x30, 0x05, 0x06, 0x03, 0x2B, 0x65, 0x70] ++
      (0x03 :: 0x41 :: 0x00 :: raw)) =
      some (0x30, [0x06, 0x03, 0x2B, 0x65, 0x70], 0x03 :: 0x41 :: 0x00 :: raw) := by
    have hshape : ([0x30, 0x05, 0x06, 0x03, 0x2B, 0x65, 0x70] ++
        (0x03 :: 0x41 :: 0x00 :: raw) : List Nat) =
        0x30 :: 0x05 :: ([0x06, 0x03, 0x2B, 0x65, 0x70] ++
          (0x03 :: 0x41 :: 0x00 :: raw)) := by
      simp
    rw [hshape]
    exact readTLV_append' _ _ _ _ (by simp) (by norm_num)
  have h3 : readTLV [0x06, 0x03, 0x2B, 0x65, 0x70] =
      some (0x06, [0x2B, 0x65, 0x70], []) := by
    have hshape : ([0x06, 0x03, 0x2B, 0x65, 0x70] : List Nat) =
        0x06 :: 0x03 :: ([0x2B, 0x65, 0x70] ++ []) := by simp
    rw [hshape]
    exact readTLV_append' _ _ _ _ (by simp) (by norm_num)
  have h4 : readTLV (0x03 :: 0x41 :: 0x00 :: raw) =
      some (0x03, 0x00 :: raw, []) := by
    have hshape : (0x03 : Nat) :: 0x41 :: 0x00 :: raw =
        0x03 :: 0x41 :: ((0x00 :: raw) ++ []) := by simp
    rw [hshape]
    exact readTLV_append' _ _ _ _ (by simp [h]) (by norm_num)
  simp only [fromDer, h1, h2, h3, h4]
  simp [ALGORITHM_ID, ALGORITHM_OID]

/-- Generalization of the signature parse to an arbitrary unused-bits octet
`u ≤ 7`: the `der` BIT STRING decoder accepts any unused-bit count 0-7 on a
nonempty content and `raw_bytes()` still returns all 64 signature bytes. -/
theorem fromDer_sig_ub (u : Nat) (raw : List Nat) (h : raw.length = 64)
    (hu : u ≤ 7) :
    fromDer (0x30 :: 0x4A :: 0x30 :: 0x05 :: 0x06 :: 0x03 :: 0x2B :: 0x65 :: 0x70 ::
      0x03 :: 0x41 :: u :: raw) = some (ALGORITHM_ID, raw) := by
  have h1 : readTLV (0x30 :: 0x4A :: 0x30 :: 0x05 :: 0x06 :: 0x03 :: 0x2B :: 0x65 ::
      0x70 :: 0x03 :: 0x41 :: u :: raw) =
      some (0x30, [0x30, 0x05, 0x06, 0x03, 0x2B, 0x65, 0x70] ++
        (0x03 :: 0x41 :: u :: raw), []) := by
    have hshape : (0x30 : Nat) :: 0x4A :: 0x30 :: 0x05 :: 0x06 :: 0x03 :: 0x2B ::
        0x65 :: 0x70 :: 0x03 :: 0x41 :: u :: raw =
        0x30 :: 0x4A :: (([0x30, 0x05, 0x06, 0x03, 0x2B, 0x65, 0x70] ++
          (0x03 :: 0x41 :: u :: raw)) ++ []) := by
      simp
    rw [hshape]
    exact readTLV_append' _ _ _ _ (by simp [h]) (by norm_num)
  have h2 : readTLV ([0x30, 0x05, 0x06, 0x03, 0x2B, 0x65, 0x70] ++
      (0x03 :: 0x41 :: u :: raw)) =
      some (0x30, [0x06, 0x03, 0x2B, 0x65, 0x70], 0x03 :: 0x41 :: u :: raw) := by
    have hshape : ([0x30, 0x05, 0x06, 0x03, 0x2B, 0x65, 0x70] ++
        (0x03 :: 0x41 :: u :: raw) : List Nat) =
        0x30 :: 0x05 :: ([0x06, 0x03, 0x2B, 0x65, 0x70] ++
          (0x03 :: 0x41 :: u :: raw)) := by
      simp
    rw [hshape]
    exact readTLV_append' _ _ _ _ (by simp) (by norm_num)
  have h3 : readTLV [0x06, 0x03, 0x2B, 0x65, 0x70] =
      some (0x06, [0x2B, 0x65, 0x70], []) := by
    have hshape : ([0x06, 0x03, 0x2B, 0x65, 0x70] : List Nat) =
        0x06 :: 0x03 :: ([0x2B, 0x65, 0x70] ++ []) := by simp
    rw [hshape]
    exact readTLV_append' _ _ _ _ (by simp) (by norm_num)
  have h4 : readTLV (0x03 :: 0x41 :: u :: raw) =
      some (0x03, u :: raw, []) := by
    have hshape : (0x03 : Nat) :: 0x41 :: u :: raw =
        0x03 :: 0x41 :: ((u :: raw) ++ []) := by simp
    rw [hshape]
    exact readTLV_append' _ _ _ _ (by simp [h]) (by norm_num)
  have hraw : raw ≠ [] := by
    intro hr
    rw [hr] at h
    simp at h
  simp only [fromDer, h1, h2, h3, h4]
  simp [ALGORITHM_ID, ALGORITHM_OID, hu, hraw]

theorem bytesToNatLE_capRBytesOf (kp : KeyPair) (digest : List Nat) :
    bytesToNatLE (capRBytesOf kp digest) = nonceScalar kp digest := by
  unfold capRBytesOf
  rw [bytesToNatLE_natToBytesLE_mod,
    Nat.mod_eq_of_lt (lt_trans (nonceScalar_lt kp digest) L_lt_byte32)]

/-- Strict verification accepts an honestly produced raw signature: the
EdDSA equation holds at the honest response scalar. -/
theorem verifyStrict_rawSign (kp : KeyPair) (digest : List Nat) :
    verifyStrict (secretScalar kp) kp.encoded_verifying_key digest
      (rawSign kp digest) = true := by
  have hsB : bytesToNatLE (natToBytesLE 32 (sScalar kp digest)) = sScalar kp digest := by
    rw [bytesToNatLE_natToBytesLE_mod,
      Nat.mod_eq_of_lt (lt_trans (sScalar_lt kp digest) L_lt_byte32)]
  unfold rawSign
  rw [verifyStrict_append _ _ _ _ _ (by simp [capRBytesOf, natToBytesLE_length])]
  rw [bytesToNatLE_capRBytesOf, hsB]
  rw [if_neg (by push_neg; exact nonceScalar_lt kp digest),
    if_neg (by push_neg; exact sScalar_lt kp digest)]
  have heq : sScalar kp digest % L =
      (nonceScalar kp digest +
        (modelHash (capRBytesOf kp digest ++ kp.encoded_verifying_key ++ digest) % L) *
          secretScalar kp) % L := by
    rw [Nat.mod_eq_of_lt (sScalar_lt kp digest)]
    rfl
  rw [heq]
  exact beq_self_eq_true _

/-- Core round trip: verifying an honestly produced signature with the
matching verifying key and digest succeeds. -/
theorem verify_rawSign (kp : KeyPair) (digest : List Nat) :
    verify kp.encoded_verifying_key digest
      (asn1SignatureToDer (rawSign kp digest)) = .ok true := by
  have hparse := fromDer_asn1SignatureToDer (rawSign kp digest)
    (rawSign_length kp digest)
  rw [verify, pointDecode_encoded_verifying_key, hparse]
  simp [verifyStrict_rawSign, rawSign_length]

/-- Tampering any byte of the `S` half of an honest signature makes strict
verification fail: either the tampered `S` is non-canonical (`≥ L`) or it
is a canonical scalar different from the unique valid response, the
little-endian byte decomposition being injective at every position. -/
theorem verify_tamper_sByte (kp : KeyPair) (digest : List Nat) (j b : Nat)
    (hj : j < 32)
    (hne : b ≠ (natToBytesLE 32 (sScalar kp digest)).getD j 0) :
    verify kp.encoded_verifying_key digest
      (asn1SignatureToDer (capRBytesOf kp digest ++
        (natToBytesLE 32 (sScalar kp digest)).set j b)) = .ok false := by
  have hjlen : j < (natToBytesLE 32 (sScalar kp digest)).length := by
    rw [natToBytesLE_length]
    exact hj
  have hlen : (capRBytesOf kp digest ++
      (natToBytesLE 32 (sScalar kp digest)).set j b).length = 64 := by
    simp [capRBytesOf, natToBytesLE_length]
  have hparse := fromDer_asn1SignatureToDer _ hlen
  have hTlen : ((natToBytesLE 32 (sScalar kp digest)).take j).length = j := by
    simp [List.length_take, natToBytesLE_length]
    omega
  have hsB : bytesToNatLE (natToBytesLE 32 (sScalar kp digest)) = sScalar kp digest := by
    rw [bytesToNatLE_natToBytesLE_mod,
      Nat.mod_eq_of_lt (lt_trans (sScalar_lt kp digest) L_lt_byte32)]
  have hsplitb : (natToBytesLE 32 (sScalar kp digest)).set j b =
      (natToBytesLE 32 (sScalar kp digest)).take j ++
        b :: (natToBytesLE 32 (sScalar kp digest)).drop (j + 1) := by
    rw [List.set_eq_take_append_cons_drop, if_pos hjlen]
  have hsplitc : natToBytesLE 32 (sScalar kp digest) =
      (natToBytesLE 32 (sScalar kp digest)).take j ++
        (natToBytesLE 32 (sScalar kp digest)).getD j 0 ::
          (natToBytesLE 32 (sScalar kp digest)).drop (j + 1) :=
    take_getD_drop _ j 0 hjlen
  have hvalb : bytesToNatLE ((natToBytesLE 32 (sScalar kp digest)).set j b) =
      bytesToNatLE ((natToBytesLE 32 (sScalar kp digest)).take j) + 256 ^ j *
        (b + 256 * bytesToNatLE ((natToBytesLE 32 (sScalar kp digest)).drop (j + 1))) := by
    rw [hsplitb, bytesToNatLE_append, hTlen]
    rfl
  have hvalc : sScalar kp digest =
      bytesToNatLE ((natToBytesLE 32 (sScalar kp digest)).take j) + 256 ^ j *
        ((natToBytesLE 32 (sScalar kp digest)).getD j 0 +
          256 * bytesToNatLE ((natToBytesLE 32 (sScalar kp digest)).drop (j + 1))) := by
    conv_lhs => rw [← hsB]
    conv_lhs => rw [hsplitc]
    rw [bytesToNatLE_append, hTlen]
    rfl
  have hneq : bytesToNatLE ((natToBytesLE 32 (sScalar kp digest)).set j b) ≠
      sScalar kp digest := by
    rw [hvalb]
    conv_rhs => rw [hvalc]
    intro heq
    have h1 := Nat.add_left_cancel heq
    have h2 := Nat.eq_of_mul_eq_mul_left (pow_pos (by norm_num) j) h1
    have h3 : b = (natToBytesLE 32 (sScalar kp digest)).getD j 0 := by omega
    exact hne h3
  have hstrict : verifyStrict (secretScalar kp) kp.encoded_verifying_key digest
      (capRBytesOf kp digest ++ (natToBytesLE 32 (sScalar kp digest)).set j b) =
      false := by
    rw [verifyStrict_append _ _ _ _ _ (by simp [capRBytesOf, natToBytesLE_length])]
    rw [bytesToNatLE_capRBytesOf]
    rw [if_neg (by push_neg; exact nonceScalar_lt kp digest)]
    by_cases hbig : L ≤ bytesToNatLE ((natToBytesLE 32 (sScalar kp digest)).set j b)
    · rw [if_pos hbig]
    · rw [if_neg hbig]
      have hrhs : (nonceScalar kp digest +
          (modelHash (capRBytesOf kp digest ++ kp.encoded_verifying_key ++ digest) % L) *
            secretScalar kp) % L = sScalar kp digest := rfl
      rw [hrhs]
      push_neg at hbig
      rw [Nat.mod_eq_of_lt hbig]
      exact beq_eq_false_iff_ne.mpr hneq
  rw [verify, pointDecode_encoded_verifying_key, hparse]
  simp [hstrict, hlen]

theorem readTLV_tag (x : Nat) (rest : List Nat) (t : Nat) (c r : List Nat)
    (h : readTLV (x :: rest) = some (t, c, r)) : t = x := by
  cases rest with
  | nil => simp [readTLV] at h
  | cons l tl =>
    rw [readTLV_cons] at h
    by_cases hc : l < 128 ∧ l ≤ tl.length
    · rw [if_pos hc] at h
      simp only [Option.some.injEq, Prod.mk.injEq] at h
      exact h.1.symm
    · rw [if_neg hc] at h
      cases h

/-- A DER message whose first byte is not the SEQUENCE tag 0x30 fails to
parse as an `Asn1Signature`. -/
theorem fromDer_wrong_tag (x : Nat) (rest : List Nat) (hx : x ≠ 0x30) :
    fromDer (x :: rest) = none := by
  cases h : readTLV (x :: rest) with
  | none => simp only [fromDer, h]
  | some triple =>
    obtain ⟨t, c, r⟩ := triple
    have ht : t = x := readTLV_tag x rest t c r h
    simp only [fromDer, h]
    rw [if_neg (fun hcon => hx (ht ▸ hcon.1))]

end Ed25519

/-! ## Claim theorems (first batch) -/

/-- C6: `member_of_mul_group(x, n)` returns true iff `x` is a member of the
multiplicative group `Z*_n`, i.e. `1 ≤ x < n` and `gcd(x, n) = 1`; in
particular it returns false for `x = 0` and for every `x ≥ n`. -/
theorem member_of_mul_group_iff (x n : Int) :
    (PaillierZk.member_of_mul_group x n = true ↔
      1 ≤ x ∧ x < n ∧ Int.gcd x n = 1) ∧
    (n ≤ x → PaillierZk.member_of_mul_group x n = false) ∧
    PaillierZk.member_of_mul_group 0 n = false := by
  refine ⟨?_, ?_, ?_⟩
  · unfold PaillierZk.member_of_mul_group
    constructor
    · intro h
      by_cases h1 : x < 1 ∨ x ≥ n
      · simp [h1] at h
      · push_neg at h1
        refine ⟨by omega, by omega, ?_⟩
        by_cases h2 : Int.gcd x n = 1
        · exact h2
        · exfalso
          have hcond : (x < 1 || x ≥ n) = false := by
            simp
            omega
          simp [hcond, h2] at h

    · rintro ⟨hx1, hxn, hg⟩
      have hcond : (x < 1 || x ≥ n) = false := by
        simp
        omega
      simp [hcond, hg]
  · intro hle
    unfold PaillierZk.member_of_mul_group
    have : (x < 1 || x ≥ n) = true := by simp; omega
    simp [this]
  · unfold PaillierZk.member_of_mul_group
    simp

/-- C6 witness: evaluation at `x = 3`, `n = 10` (a unit of `Z*_10`), at
`x = 12 ≥ n = 10`, and at `x = 0`. -/
theorem member_of_mul_group_iff_witness :
    PaillierZk.member_of_mul_group 3 10 = true ∧
    PaillierZk.member_of_mul_group 12 10 = false := by
  refine ⟨?_, ?_⟩
  · exact (member_of_mul_group_iff 3 10).1.mpr (by decide)
  · exact (member_of_mul_group_iff 12 10).2.1 (by decide)

/-- C9: `serialize(value)` returns `Err(TofnFatal)` exactly when the
underlying serialization fails, and otherwise returns `Ok` with the
serialized bytes; the result is always either `Ok bytes` or the fatal,
non-attributable `TofnFatal` — never a faulter list (the return type has no
faulter channel). -/
theorem serialize_fatal_iff {α : Type} (enc : α → Option (List Nat)) (value : α) :
    (Sdk.serialize enc value = .error .mk ↔ enc value = none) ∧
    (∀ bytes, enc value = some bytes → Sdk.serialize enc value = .ok bytes) := by
  constructor
  · constructor
    · intro h
      cases henc : enc value with
      | none => rfl
      | some b => simp [Sdk.serialize, henc] at h
    · intro h
      simp [Sdk.serialize, h]
  · intro bytes h
    simp [Sdk.serialize, h]

/-- C9 witness: a failing serializer yields `Err(TofnFatal)` and a succeeding
serializer yields `Ok` of its bytes, at the concrete value `7 : Nat`. -/
theorem serialize_fatal_iff_witness :
    Sdk.serialize (fun (_ : Nat) => none) 7 = .error .mk ∧
    Sdk.serialize (fun (n : Nat) => some [n]) 7 = .ok [7] := by
  constructor
  · exact (serialize_fatal_iff (fun (_ : Nat) => none) 7).1.mpr rfl
  · exact (serialize_fatal_iff (fun (n : Nat) => some [n]) 7).2 [7] rfl

/-- C2: for every secret recovery key, session nonce, and 32-byte message
digest, if keygen succeeds then verify applied to the resulting keypair's
encoded verifying key, the same digest, and the output of sign on that
keypair and digest returns Ok(true). -/
theorem ed25519_keygen_sign_verify (secret_recovery_key session_nonce digest : List Nat)
    (kp : Ed25519.KeyPair) (sig : List Nat)
    (hk : Ed25519.keygen secret_recovery_key session_nonce = .ok kp)
    (hs : Ed25519.sign kp digest = .ok sig) :
    Ed25519.verify kp.encoded_verifying_key digest sig = .ok true := by
  have hsig : Ed25519.asn1SignatureToDer (Ed25519.rawSign kp digest) = sig := by
    have h := hs
    simp only [Ed25519.sign, Except.ok.injEq] at h
    exact h
  rw [← hsig]
  exact Ed25519.verify_rawSign kp digest

/-- C2 witness: the round trip evaluated at the all-zero 64-byte secret
recovery key, the 4-byte zero nonce, and the digest `[42; 32]`. -/
theorem ed25519_keygen_sign_verify_witness :
    Ed25519.verify
      (Ed25519.keyPairOfSeed (Ed25519.rngBytes (Ed25519.seedInput Ed25519.ED25519_TAG
        Ed25519.KEYGEN_TAG (List.replicate 64 0) [0, 0, 0, 0]))).encoded_verifying_key
      (List.replicate 32 42)
      (Ed25519.asn1SignatureToDer (Ed25519.rawSign
        (Ed25519.keyPairOfSeed (Ed25519.rngBytes (Ed25519.seedInput Ed25519.ED25519_TAG
          Ed25519.KEYGEN_TAG (List.replicate 64 0) [0, 0, 0, 0])))
        (List.replicate 32 42))) = .ok true :=
  ed25519_keygen_sign_verify (List.replicate 64 0) [0, 0, 0, 0] (List.replicate 32 42)
    _ _ rfl rfl

/-- C4: for every keypair and message digest, the byte string returned by
sign is exactly an ASN.1 DER SEQUENCE (tag 0x30, length 0x4A) of an
AlgorithmIdentifier (SEQUENCE 0x30 0x05 holding OID 0x06 0x03 2B 65 70,
i.e. 1.3.101.112) followed by a BIT STRING (0x03, length 0x41, unused-bit
octet 0x00) whose 64-byte content is the raw EdDSA signature; parsing it
back yields the ed25519 algorithm identifier and that raw signature. -/
theorem ed25519_sign_der_structure (kp : Ed25519.KeyPair) (digest : List Nat) :
    Ed25519.sign kp digest = .ok
      (0x30 :: 0x4A :: 0x30 :: 0x05 :: 0x06 :: 0x03 :: 0x2B :: 0x65 :: 0x70 ::
        0x03 :: 0x41 :: 0x00 :: Ed25519.rawSign kp digest) ∧
    (Ed25519.rawSign kp digest).length = 64 ∧
    Ed25519.fromDer
      (0x30 :: 0x4A :: 0x30 :: 0x05 :: 0x06 :: 0x03 :: 0x2B :: 0x65 :: 0x70 ::
        0x03 :: 0x41 :: 0x00 :: Ed25519.rawSign kp digest) =
      some (Ed25519.ALGORITHM_ID, Ed25519.rawSign kp digest) := by
  refine ⟨?_, Ed25519.rawSign_length kp digest, ?_⟩
  · rw [Ed25519.sign,
      Ed25519.asn1SignatureToDer_eq _ (Ed25519.rawSign_length kp digest)]
  · rw [← Ed25519.asn1SignatureToDer_eq _ (Ed25519.rawSign_length kp digest)]
    exact Ed25519.fromDer_asn1SignatureToDer _ (Ed25519.rawSign_length kp digest)

/-- C5: Ed25519 keygen is deterministic: two runs whose RNG seed material —
built from only the ED25519_TAG domain tag, the KEYGEN_TAG subtag 0x00, the
secret recovery key, and the session nonce — agrees produce identical
keypairs (hence identical verifying keys and signatures), and keygen factors
exactly through that seed material. -/
theorem ed25519_keygen_deterministic (srk nonce srk2 nonce2 : List Nat)
    (h : Ed25519.seedInput Ed25519.ED25519_TAG Ed25519.KEYGEN_TAG srk nonce =
      Ed25519.seedInput Ed25519.ED25519_TAG Ed25519.KEYGEN_TAG srk2 nonce2) :
    Ed25519.keygen srk nonce = Ed25519.keygen srk2 nonce2 ∧
    Ed25519.keygen srk nonce = .ok (Ed25519.keyPairOfSeed (Ed25519.rngBytes
      (Ed25519.seedInput Ed25519.ED25519_TAG Ed25519.KEYGEN_TAG srk nonce))) :=
  ⟨by rw [Ed25519.keygen, Ed25519.keygen, h], rfl⟩

/-- C5 witness: two runs at the same concrete key and nonce coincide. -/
theorem ed25519_keygen_deterministic_witness :
    Ed25519.keygen [1] [2, 3] = Ed25519.keygen [1] [2, 3] :=
  (ed25519_keygen_deterministic [1] [2, 3] [1] [2, 3] rfl).1

/-- Concrete Ed25519 inputs for the C3 tampering analysis: the all-zero
64-byte secret recovery key, the 4-byte zero session nonce, and the digest
`[42; 32]` (spec end-to-end scenarios 1 and 6). -/
def cexKeyPair : Ed25519.KeyPair :=
  Ed25519.keyPairOfSeed (Ed25519.rngBytes (Ed25519.seedInput Ed25519.ED25519_TAG
    Ed25519.KEYGEN_TAG (List.replicate 64 0) [0, 0, 0, 0]))

/-- The digest used by the C3 tampering analysis. -/
def cexDigest : List Nat := List.replicate 32 42

/-- The honest DER signature over `cexDigest` under `cexKeyPair`. -/
def cexSig : List Nat :=
  Ed25519.asn1SignatureToDer (Ed25519.rawSign cexKeyPair cexDigest)

/-- C3 counterexample: the claim "changing any single byte of the encoded
signature yields false" fails on the code: changing the FIRST byte of the
DER signature (0x30 ↦ 0x31) makes `Asn1Signature::from_der` fail, so
`verify` returns `Err(TofnFatal)` — not `Ok(false)` — even though the
original signature verifies as `Ok(true)`. -/
theorem ed25519_tamper_first_byte_not_false :
    Ed25519.sign cexKeyPair cexDigest = .ok cexSig ∧
    Ed25519.verify cexKeyPair.encoded_verifying_key cexDigest cexSig = .ok true ∧
    cexSig.headD 0 = 0x30 ∧
    Ed25519.verify cexKeyPair.encoded_verifying_key cexDigest
      (0x31 :: cexSig.tail) = .error .mk ∧
    Ed25519.verify cexKeyPair.encoded_verifying_key cexDigest
      (0x31 :: cexSig.tail) ≠ .ok false := by
  have herr : Ed25519.verify cexKeyPair.encoded_verifying_key cexDigest
      (0x31 :: cexSig.tail) = .error .mk := by
    have hparse : Ed25519.fromDer (0x31 :: cexSig.tail) = none :=
      Ed25519.fromDer_wrong_tag 0x31 cexSig.tail (by norm_num)
    rw [Ed25519.verify, Ed25519.pointDecode_encoded_verifying_key, hparse]
  refine ⟨rfl, Ed25519.verify_rawSign cexKeyPair cexDigest, rfl, herr, ?_⟩
  rw [herr]
  intro hc
  cases hc

/-- C3 (amended): single-byte tampering of a signature produced by sign is
not uniformly false; it is three-valued. (1) Changing any byte of the
trailing 32-byte `S` half of the inner signature to any different byte
value yields Ok(false): the signature no longer verifies. (2) Changing the
leading SEQUENCE tag byte makes the DER parse fail, so verify yields
Err(TofnFatal) rather than Ok(false). (3) Changing the BIT STRING
unused-bits octet (byte 11) from 0x00 to any count 1-7 is accepted by the
DER decoder and leaves the same 64 signature bytes, so verify still
returns Ok(true). -/
theorem ed25519_tamper_single_byte (srk nonce digest : List Nat)
    (kp : Ed25519.KeyPair) (sig : List Nat)
    (hk : Ed25519.keygen srk nonce = .ok kp)
    (hs : Ed25519.sign kp digest = .ok sig) :
    (∀ b, b ≠ 0x30 →
      Ed25519.verify kp.encoded_verifying_key digest (sig.set 0 b) = .error .mk) ∧
    (∀ u, 1 ≤ u → u ≤ 7 →
      Ed25519.verify kp.encoded_verifying_key digest (sig.set 11 u) = .ok true) ∧
    (∀ j b, j < 32 → b < 256 → b ≠ sig.getD (j + 44) 0 →
      Ed25519.verify kp.encoded_verifying_key digest (sig.set (j + 44) b) =
        .ok false) := by
  have hsig : Ed25519.asn1SignatureToDer (Ed25519.rawSign kp digest) = sig := by
    have h := hs
    simp only [Ed25519.sign, Except.ok.injEq] at h
    exact h
  subst hsig
  have hexp := Ed25519.asn1SignatureToDer_eq _ (Ed25519.rawSign_length kp digest)
  refine ⟨?_, ?_, ?_⟩
  · intro b hbne
    rw [hexp, List.set_cons_zero]
    have hnone := Ed25519.fromDer_wrong_tag b
      (0x4A :: 0x30 :: 0x05 :: 0x06 :: 0x03 :: 0x2B :: 0x65 :: 0x70 ::
        0x03 :: 0x41 :: 0x00 :: Ed25519.rawSign kp digest) hbne
    rw [Ed25519.verify, Ed25519.pointDecode_encoded_verifying_key, hnone]
  · intro u hu1 hu7
    rw [hexp]
    have hset : ((0x30 : Nat) :: 0x4A :: 0x30 :: 0x05 :: 0x06 :: 0x03 :: 0x2B ::
        0x65 :: 0x70 :: 0x03 :: 0x41 :: 0x00 :: Ed25519.rawSign kp digest).set 11 u =
        0x30 :: 0x4A :: 0x30 :: 0x05 :: 0x06 :: 0x03 :: 0x2B :: 0x65 :: 0x70 ::
          0x03 :: 0x41 :: u :: Ed25519.rawSign kp digest := rfl
    rw [hset, Ed25519.verify, Ed25519.pointDecode_encoded_verifying_key,
      Ed25519.fromDer_sig_ub u _ (Ed25519.rawSign_length kp digest) hu7]
    simp [Ed25519.verifyStrict_rawSign, Ed25519.rawSign_length]
  · intro j b hj hb hne
    have hraw : Ed25519.rawSign kp digest =
        Ed25519.capRBytesOf kp digest ++
          natToBytesLE 32 (Ed25519.sScalar kp digest) := rfl
    have hclen : (Ed25519.capRBytesOf kp digest).length = 32 := by
      simp [Ed25519.capRBytesOf, natToBytesLE_length]
    have hset12 : ((0x30 : Nat) :: 0x4A :: 0x30 :: 0x05 :: 0x06 :: 0x03 :: 0x2B ::
        0x65 :: 0x70 :: 0x03 :: 0x41 :: 0x00 :: Ed25519.rawSign kp digest).set
          (j + 44) b =
        0x30 :: 0x4A :: 0x30 :: 0x05 :: 0x06 :: 0x03 :: 0x2B :: 0x65 :: 0x70 ::
          0x03 :: 0x41 :: 0x00 :: (Ed25519.rawSign kp digest).set (j + 32) b := rfl
    have hgetD12 : ((0x30 : Nat) :: 0x4A :: 0x30 :: 0x05 :: 0x06 :: 0x03 :: 0x2B ::
        0x65 :: 0x70 :: 0x03 :: 0x41 :: 0x00 :: Ed25519.rawSign kp digest).getD
          (j + 44) 0 =
        (Ed25519.rawSign kp digest).getD (j + 32) 0 := rfl
    have hset32 : (Ed25519.rawSign kp digest).set (j + 32) b =
        Ed25519.capRBytesOf kp digest ++
          (natToBytesLE 32 (Ed25519.sScalar kp digest)).set j b := by
      conv_lhs => rw [hraw]
      have h := set_append_length (Ed25519.capRBytesOf kp digest)
        (natToBytesLE 32 (Ed25519.sScalar kp digest)) j b
      rw [hclen] at h
      exact h
    have hgetD32 : (Ed25519.rawSign kp digest).getD (j + 32) 0 =
        (natToBytesLE 32 (Ed25519.sScalar kp digest)).getD j 0 := by
      conv_lhs => rw [hraw]
      have h := getD_append_length (Ed25519.capRBytesOf kp digest)
        (natToBytesLE 32 (Ed25519.sScalar kp digest)) j (0 : Nat)
      rw [hclen] at h
      exact h
    rw [hexp] at hne
    rw [hgetD12, hgetD32] at hne
    rw [hexp, hset12, hset32]
    rw [← Ed25519.asn1SignatureToDer_eq
      (Ed25519.capRBytesOf kp digest ++
        (natToBytesLE 32 (Ed25519.sScalar kp digest)).set j b)
      (by simp [Ed25519.capRBytesOf, natToBytesLE_length])]
    exact Ed25519.verify_tamper_sByte kp digest j b hj hne

/-- A concrete byte value different from byte 75 (the top `S` byte) of
`cexSig`. -/
def cexAltByte : Nat := if cexSig.getD 75 0 = 0 then 1 else 0

/-- C3 witness: on the concrete signature `cexSig`, tampering the leading
tag byte yields Err(TofnFatal), tampering the unused-bits octet to 1 keeps
verify = Ok(true), and tampering the last `S` byte yields Ok(false). -/
theorem ed25519_tamper_single_byte_witness :
    Ed25519.verify cexKeyPair.encoded_verifying_key cexDigest
      (cexSig.set 0 0x31) = .error .mk ∧
    Ed25519.verify cexKeyPair.encoded_verifying_key cexDigest
      (cexSig.set 11 1) = .ok true ∧
    Ed25519.verify cexKeyPair.encoded_verifying_key cexDigest
      (cexSig.set (31 + 44) cexAltByte) = .ok false := by
  obtain ⟨h1, h2, h3⟩ := ed25519_tamper_single_byte (List.replicate 64 0)
    [0, 0, 0, 0] cexDigest cexKeyPair cexSig rfl rfl
  exact ⟨h1 0x31 (by norm_num), h2 1 (by norm_num) (by norm_num),
    h3 31 cexAltByte (by norm_num)
      (by unfold cexAltByte; split <;> norm_num) (by decide)⟩


/-- With both parses successful, verify reduces to the algorithm and length
checks followed by strict verification. -/
theorem verify_unfold_some (vk digest sig : List Nat) (p : Nat)
    (alg : Ed25519.AlgId) (raw : List Nat)
    (hp : Ed25519.pointDecode vk = some p)
    (hf : Ed25519.fromDer sig = some (alg, raw)) :
    Ed25519.verify vk digest sig =
      if alg ≠ Ed25519.ALGORITHM_ID then .error .mk
      else if raw.length ≠ 64 then .error .mk
      else .ok (Ed25519.verifyStrict p vk digest raw) := by
  simp only [Ed25519.verify, hp, hf]

/-- An undecodable verifying key forces the fatal error channel. -/
theorem verify_err_of_pointDecode_none (vk digest sig : List Nat)
    (hp : Ed25519.pointDecode vk = none) :
    Ed25519.verify vk digest sig = .error .mk := by
  simp only [Ed25519.verify, hp]

/-- A malformed DER signature forces the fatal error channel. -/
theorem verify_err_of_fromDer_none (vk digest sig : List Nat)
    (hf : Ed25519.fromDer sig = none) :
    Ed25519.verify vk digest sig = .error .mk := by
  cases hp : Ed25519.pointDecode vk with
  | none => simp only [Ed25519.verify, hp]
  | some p => simp only [Ed25519.verify, hp, hf]

/-- C10: Ed25519 verify returns Ok(false) only for inputs that parse as a
well-formed DER signature with the exact ed25519 AlgorithmIdentifier and a
valid-length (64-byte) inner signature but fail strict verification; for
every input whose verifying-key bytes are invalid, whose DER encoding is
malformed, whose algorithm identifier differs from the ed25519 one, or
whose inner bit string is not a valid 64-byte signature, verify returns
Err(TofnFatal) rather than Ok(false). -/
theorem ed25519_verify_error_channel (vk digest sig : List Nat) :
    (Ed25519.verify vk digest sig = .ok false →
      ∃ p raw, Ed25519.pointDecode vk = some p ∧
        Ed25519.fromDer sig = some (Ed25519.ALGORITHM_ID, raw) ∧
        raw.length = 64 ∧
        Ed25519.verifyStrict p vk digest raw = false) ∧
    (Ed25519.pointDecode vk = none → Ed25519.verify vk digest sig = .error .mk) ∧
    (Ed25519.fromDer sig = none → Ed25519.verify vk digest sig = .error .mk) ∧
    (∀ alg raw, Ed25519.fromDer sig = some (alg, raw) →
      alg ≠ Ed25519.ALGORITHM_ID → Ed25519.verify vk digest sig = .error .mk) ∧
    (∀ alg raw, Ed25519.fromDer sig = some (alg, raw) → raw.length ≠ 64 →
      Ed25519.verify vk digest sig = .error .mk) := by
  refine ⟨?_, ?_, ?_, ?_, ?_⟩
  · intro h
    cases hp : Ed25519.pointDecode vk with
    | none =>
      rw [verify_err_of_pointDecode_none vk digest sig hp] at h
      cases h
    | some p =>
      cases hf : Ed25519.fromDer sig with
      | none =>
        rw [verify_err_of_fromDer_none vk digest sig hf] at h
        cases h
      | some pr =>
        obtain ⟨alg, raw⟩ := pr
        rw [verify_unfold_some vk digest sig p alg raw hp hf] at h
        by_cases halg : alg ≠ Ed25519.ALGORITHM_ID
        · rw [if_pos halg] at h
          cases h
        · rw [if_neg halg] at h
          by_cases hlen : raw.length ≠ 64
          · rw [if_pos hlen] at h
            cases h
          · rw [if_neg hlen] at h
            push_neg at halg hlen
            refine ⟨p, raw, rfl, ?_, hlen, Except.ok.inj h⟩
            rw [halg]
  · intro hp
    exact verify_err_of_pointDecode_none vk digest sig hp
  · intro hf
    exact verify_err_of_fromDer_none vk digest sig hf
  · intro alg raw hf hne
    cases hp : Ed25519.pointDecode vk with
    | none => exact verify_err_of_pointDecode_none vk digest sig hp
    | some p =>
      rw [verify_unfold_some vk digest sig p alg raw hp hf, if_pos hne]
  · intro alg raw hf hne
    cases hp : Ed25519.pointDecode vk with
    | none => exact verify_err_of_pointDecode_none vk digest sig hp
    | some p =>
      rw [verify_unfold_some vk digest sig p alg raw hp hf]
      by_cases halg : alg ≠ Ed25519.ALGORITHM_ID
      · rw [if_pos halg]
      · rw [if_neg halg, if_pos hne]

/-- C10 witness: at the all-0xff verifying key (not a decodable subgroup
point), verify returns Err(TofnFatal); at a valid key with a non-DER
signature, verify returns Err(TofnFatal). -/
theorem ed25519_verify_error_channel_witness :
    Ed25519.verify (List.replicate 32 255) [] [] = .error .mk ∧
    Ed25519.verify cexKeyPair.encoded_verifying_key cexDigest [0, 1, 2] =
      .error .mk := by
  constructor
  · exact (ed25519_verify_error_channel (List.replicate 32 255) [] []).2.1 (by decide)
  · exact (ed25519_verify_error_channel cexKeyPair.encoded_verifying_key cexDigest
      [0, 1, 2]).2.2.1 (by decide)

/-! ## Legacy sign round 7 (src/protocol/gg20/sign/r7.rs)

The round's own control flow — verify every peer's Pedersen-WC proof, check
`Σ S_i = y`, then compute and broadcast `s_i = m·k_i + r·σ_i` — is embedded
from the source. Panics (`assert!`, `unwrap`, `panic!` in `unwrap_or_else`,
`assert_eq!`) are modelled as `none`; the happy-path return value is
`some (State, Bcast)`. External collaborators (`curv` points and field
elements, `crate::zkp::pedersen`) are modelled from the spec: the
secp256k1 scalar field is `Nat % q`, points are modelled in the exponent
(the group generated by `g` is cyclic of prime order `q`), and a
Pedersen-WC proof verifies exactly when it is bound to the verified
statement. -/

/-- The secp256k1 group order `q`. -/
def secp256k1_q : Nat :=
  0xFFFFFFFFFFFFFFFFFFFFFFFFFFFFFFFEBAAEDCE6AF48A03BBFD25E8CD0364141

namespace SignR7

/-- Round status of the legacy `Sign` state machine (closed sum, spec 9). -/
inductive Status where
  | R1
  | R2
  | R3
  | R4
  | R5
  | R6
  | R7
deriving DecidableEq

/-- Modelled from the spec: `ECPoint::x_coor` of the `curv` library
(external) — some fixed function of the point; the claims hold for any
choice. -/
def x_coor (p : Nat) : Nat := p

/-- Modelled from the spec: the Pedersen-WC statement
`{ stmt: { commit }, msg_g, g }` (crate::zkp::pedersen, not under src/),
with the inner `Statement` flattened. -/
structure StatementWc where
  commit : Nat
  msg_g : Nat
  g : Nat
deriving DecidableEq

/-- Modelled from the spec: a Pedersen-WC proof; an honest prover binds the
proof to its statement. -/
structure ProofWc where
  stmtBind : StatementWc
deriving DecidableEq

/-- Modelled from the spec: `pedersen::verify_wc(stmt, proof)` succeeds
exactly on a proof bound to the verified statement. -/
def verify_wc (stmt : StatementWc) (pf : ProofWc) : Except (List Nat) Unit :=
  if pf.stmtBind = stmt then .ok () else .error [0x62, 0x61, 0x64]

/-- The fields of `SecretKeyShare` consumed by r7. -/
structure SecretKeyShare where
  my_index : Nat
  ecdsa_public_key : Nat
deriving DecidableEq

/-- The r1 state field consumed by r7: the nonce summand `k_i`. -/
structure R1State where
  my_ecdsa_nonce_summand : Nat
deriving DecidableEq

/-- The r3 state field consumed by r7: the summand `σ_i`. -/
structure R3State where
  my_nonce_x_keyshare_summand : Nat
deriving DecidableEq

/-- The r5 state field consumed by r7: the randomizer `R`. -/
structure R5State where
  ecdsa_randomizer : Nat
deriving DecidableEq

/-- The r6 state field consumed by r7: our own `S_i`. -/
structure R6State where
  my_ecdsa_public_key_check : Nat
deriving DecidableEq

/-- The r3 broadcast field consumed by r7. -/
structure R3Bcast where
  nonce_x_keyshare_summand_commit : Nat
deriving DecidableEq

/-- The r6 broadcast fields consumed by r7. -/
structure R6Bcast where
  ecdsa_public_key_check : Nat
  ecdsa_public_key_check_proof_wc : ProofWc
deriving DecidableEq

/-- Round-7 state (src/protocol/gg20/sign/r7.rs lines 16-20). -/
structure State where
  r : Nat
  my_ecdsa_sig_summand : Nat
deriving DecidableEq

/-- Round-7 broadcast (src/protocol/gg20/sign/r7.rs lines 12-15). -/
structure Bcast where
  ecdsa_sig_summand : Nat
deriving DecidableEq

/-- The slice of the `Sign` struct consumed by `Sign::r7`. -/
structure Sign where
  status : Status
  participant_indices : List Nat
  my_secret_key_share : SecretKeyShare
  msg_to_sign : Nat
  r1state : Option R1State
  r3state : Option R3State
  r5state : Option R5State
  r6state : Option R6State
  in_r3bcasts : List (Option R3Bcast)
  in_r6bcasts : List (Option R6Bcast)

/-- The r7 verification loop (src/protocol/gg20/sign/r7.rs lines 31-57):
iterate over `participant_indices`, skipping our own share; for each peer,
read its buffered r3 and r6 broadcasts (a missing entry is an `unwrap`
panic, modelled `none`), verify its Pedersen-WC proof against the statement
built from its r3 commitment, its `S_i`, and the r5 randomizer (failure is
the `unwrap_or_else(panic!)`, modelled `none`), and accumulate the sum of
the peers' `S_i` (point addition, mod `q` in the exponent model). -/
def sumChecks (myIndex randomizer : Nat) :
    List Nat → List (Option R3Bcast) → List (Option R6Bcast) → Option Nat
  | [], _, _ => some 0
  | pIdx :: ps, r3s, r6s =>
    if pIdx = myIndex then
      sumChecks myIndex randomizer ps (r3s.drop 1) (r6s.drop 1)
    else
      match r3s.head?, r6s.head? with
      | some (some b3), some (some b6) =>
        match verify_wc
            ⟨b3.nonce_x_keyshare_summand_commit, b6.ecdsa_public_key_check,
              randomizer⟩
            b6.ecdsa_public_key_check_proof_wc with
        | .ok _ =>
          match sumChecks myIndex randomizer ps (r3s.drop 1) (r6s.drop 1) with
          | some rest => some ((b6.ecdsa_public_key_check + rest) % secp256k1_q)
          | none => none
        | .error _ => none
      | _, _ => none

/-- Embedding of `Sign::r7` (src/protocol/gg20/sign/r7.rs lines 23-82):
`none` models a panic — the status assert, a missing prior-round state
(`unwrap`), a failed Pedersen-WC verification (`unwrap_or_else(panic!)`),
or the `assert_eq!(ecdsa_public_key, ...)` (`// TODO panic`). On the happy
path, `r = x_coor(R) mod q` and
`s_i = m·k_i + r·σ_i` is both stored and broadcast. -/
def Sign.r7 (s : Sign) : Option (State × Bcast) :=
  if s.status ≠ Status.R6 then none
  else
    s.r5state.bind fun r5 =>
    s.r6state.bind fun r6 =>
    s.r1state.bind fun r1 =>
    s.r3state.bind fun r3 =>
    (sumChecks s.my_secret_key_share.my_index r5.ecdsa_randomizer
      s.participant_indices s.in_r3bcasts s.in_r6bcasts).bind fun peerSum =>
    if (r6.my_ecdsa_public_key_check + peerSum) % secp256k1_q ≠
        s.my_secret_key_share.ecdsa_public_key % secp256k1_q then none
    else
      let r := x_coor r5.ecdsa_randomizer % secp256k1_q
      let sSummand :=
        (s.msg_to_sign * r1.my_ecdsa_nonce_summand +
          r * r3.my_nonce_x_keyshare_summand) % secp256k1_q
      some (⟨r, sSummand⟩, ⟨sSummand⟩)

end SignR7

/-- C8: in sign round 7, when all checks pass, the party computes `r` as
the x-coordinate of the ECDSA randomizer `R` reduced mod `q` and computes
and broadcasts the signature summand `s_i = m·k_i + r·σ_i`, where `m` is
the message digest, `k_i` the round-1 nonce summand, and `σ_i` the round-3
nonce-times-keyshare summand; the broadcast value equals the value stored
in the round-7 state. -/
theorem sign_r7_happy_path (s : SignR7.Sign) (st : SignR7.State) (bc : SignR7.Bcast)
    (h : SignR7.Sign.r7 s = some (st, bc)) :
    ∃ r1 r3 r5, s.r1state = some r1 ∧ s.r3state = some r3 ∧ s.r5state = some r5 ∧
      bc.ecdsa_sig_summand = st.my_ecdsa_sig_summand ∧
      st.r = SignR7.x_coor r5.ecdsa_randomizer % secp256k1_q ∧
      st.my_ecdsa_sig_summand =
        (s.msg_to_sign * r1.my_ecdsa_nonce_summand +
          st.r * r3.my_nonce_x_keyshare_summand) % secp256k1_q := by
  unfold SignR7.Sign.r7 at h
  by_cases hst : s.status ≠ SignR7.Status.R6
  · rw [if_pos hst] at h
    cases h
  · rw [if_neg hst] at h
    rw [Option.bind_eq_some] at h
    obtain ⟨r5, h5, h⟩ := h
    rw [Option.bind_eq_some] at h
    obtain ⟨r6, h6, h⟩ := h
    rw [Option.bind_eq_some] at h
    obtain ⟨r1, h1, h⟩ := h
    rw [Option.bind_eq_some] at h
    obtain ⟨r3, h3, h⟩ := h
    rw [Option.bind_eq_some] at h
    obtain ⟨peerSum, hsum, h⟩ := h
    by_cases hkey : (r6.my_ecdsa_public_key_check + peerSum) % secp256k1_q ≠
        s.my_secret_key_share.ecdsa_public_key % secp256k1_q
    · rw [if_pos hkey] at h
      cases h
    · rw [if_neg hkey] at h
      injection h with h
      obtain ⟨hst2, hbc⟩ := Prod.mk.injEq .. |>.mp h
      exact ⟨r1, r3, r5, h1, h3, h5, by rw [← hst2, ← hbc], by rw [← hst2],
        by rw [← hst2]⟩

/-- A concrete happy-path r7 state: a single participant (ourselves), whose
own `S_i` already sums to the public key. -/
def happySign : SignR7.Sign :=
  { status := .R6
    participant_indices := [0]
    my_secret_key_share := ⟨0, 5⟩
    msg_to_sign := 3
    r1state := some ⟨2⟩
    r3state := some ⟨4⟩
    r5state := some ⟨7⟩
    r6state := some ⟨5⟩
    in_r3bcasts := [none]
    in_r6bcasts := [none] }

/-- C8 witness: on the concrete happy-path state, r7 returns
`r = 7 mod q = 7` and `s_i = 3·2 + 7·4 = 34`, broadcast equal to state. -/
theorem sign_r7_happy_path_witness :
    ∃ r1 r3 r5, happySign.r1state = some r1 ∧ happySign.r3state = some r3 ∧
      happySign.r5state = some r5 ∧
      (SignR7.Bcast.mk 34).ecdsa_sig_summand =
        (SignR7.State.mk 7 34).my_ecdsa_sig_summand ∧
      (SignR7.State.mk 7 34).r = SignR7.x_coor r5.ecdsa_randomizer % secp256k1_q ∧
      (SignR7.State.mk 7 34).my_ecdsa_sig_summand =
        (happySign.msg_to_sign * r1.my_ecdsa_nonce_summand +
          (SignR7.State.mk 7 34).r * r3.my_nonce_x_keyshare_summand) %
            secp256k1_q :=
  sign_r7_happy_path happySign ⟨7, 34⟩ ⟨34⟩ (by decide)

/-- A concrete r7 state in which peer 1's Pedersen-WC proof is bound to the
wrong statement: verification fails. -/
def badProofSign : SignR7.Sign :=
  { status := .R6
    participant_indices := [0, 1]
    my_secret_key_share := ⟨0, 5⟩
    msg_to_sign := 3
    r1state := some ⟨2⟩
    r3state := some ⟨4⟩
    r5state := some ⟨7⟩
    r6state := some ⟨5⟩
    in_r3bcasts := [none, some ⟨9⟩]
    in_r6bcasts := [none, some ⟨11, ⟨⟨0, 0, 0⟩⟩⟩] }

/-- A concrete r7 state in which peer 1's proof verifies but
`Σ S_i = (6 + 11) mod q = 17` differs from the public key `5`. -/
def badSumSign : SignR7.Sign :=
  { status := .R6
    participant_indices := [0, 1]
    my_secret_key_share := ⟨0, 5⟩
    msg_to_sign := 3
    r1state := some ⟨2⟩
    r3state := some ⟨4⟩
    r5state := some ⟨7⟩
    r6state := some ⟨6⟩
    in_r3bcasts := [none, some ⟨9⟩]
    in_r6bcasts := [none, some ⟨11, ⟨⟨9, 11, 7⟩⟩⟩] }

/-- C1: contrary to the claim, sign round 7 does NOT route a failed
Pedersen-WC proof or a public-key-sum mismatch through the
attributable-fault channel: `Sign::r7` returns no faulter list at all (its
return type `(State, Bcast)` has no fault channel) and instead panics —
`unwrap_or_else(panic!(...))` on the failed proof and
`assert_eq!(..) // TODO panic` on the sum mismatch — modelled here as
`none` on both concrete failing states. -/
theorem sign_r7_panics_on_failure :
    SignR7.Sign.r7 badProofSign = none ∧
    SignR7.Sign.r7 badSumSign = none ∧
    SignR7.Sign.r7 happySign = some (⟨7, 34⟩, ⟨34⟩) := by
  refine ⟨by decide, by decide, by decide⟩

/-! ## Keygen round 1 (src/gg20/keygen/r1.rs)

The round's own logic — sample a degree-`t` VSS polynomial, commit to
`g·u_i` under `Y_I_COMMIT_TAG` and the share id, prove the Paillier key
correct bound to the share's party id, and return a broadcast-only
`NotDone` round builder — is embedded from the source (`start`, lines
27-85, with the `malicious`-feature `corrupt!` hooks compiled out).
External collaborators not under src/ are modelled from the spec: the VSS
sampler (`vss::Vss::new`) with its randomness passed explicitly, the
hash commitment (`hash::commit`) with its 32-byte reveal randomness passed
explicitly, the `k256` curve (exponent model mod `q`), the Paillier proof
constructors, the `PartyShareCounts::share_to_party_id` helper, and the
`bincode` codec (any concrete injective encoder). -/

namespace KeygenR1

/-- Modelled from the spec: a Feldman VSS polynomial over `Z_q`, secret
coefficients listed low degree first; `coeffs[0] = u_i = f_i(0)`. -/
structure Vss where
  coeffs : List Nat
deriving DecidableEq

/-- Modelled from the spec: `vss::Vss::new(threshold)` samples a polynomial
of degree `threshold` (so `threshold + 1` coefficients) with coefficients
in `Z_q`; the sampler's randomness is passed explicitly. -/
def Vss.new (threshold : Nat) (rand : Nat → Nat) : Vss :=
  ⟨(List.range (threshold + 1)).map fun i => rand i % secp256k1_q⟩

/-- Embedding of `Vss::get_secret`: the constant coefficient `u_i = f_i(0)`. -/
def Vss.get_secret (v : Vss) : Nat := v.coeffs.headD 0

/-- Constant `Y_I_COMMIT_TAG` (crate::gg20::crypto_tools::constants, not under src/;
modelled from the spec as an opaque byte constant). -/
def Y_I_COMMIT_TAG : Nat := 0x01

/-- Modelled from the spec: the hash underlying `hash::commit`; any
concrete function works for the claims. -/
def commitHash (bytes : List Nat) : Nat :=
  bytes.foldl (fun a b => (a * 257 + b + 1) % 2 ^ 256) 0

/-- A hash output (crate::gg20::crypto_tools::hash::Output). -/
structure HashOutput where
  val : Nat
deriving DecidableEq

/-- Modelled from the spec: `hash::commit(tag, id, payload)` returns a
commitment to `(domain tag, share id, payload)` together with a 32-byte
reveal; the reveal randomness is passed explicitly. -/
def hash_commit (tag : Nat) (id : Nat) (payload : List Nat)
    (revealRand : List Nat) : HashOutput × List Nat :=
  (⟨commitHash (tag :: id :: (payload ++ revealRand))⟩, revealRand)

/-- Scalar multiplication `g · s` in the exponent model of secp256k1. -/
def pointOfScalar (s : Nat) : Nat := s % secp256k1_q

/-- Modelled from the spec: `k256_serde::to_bytes` — the 33-byte compressed
SEC1 encoding of a point. -/
def k256_to_bytes (p : Nat) : List Nat := natToBytesLE 33 p

/-- Paillier encryption key (modulus `N`), modelled from the spec. -/
structure EncryptionKey where
  modulus : Nat
deriving DecidableEq

/-- Paillier decryption key (the two primes), modelled from the spec. -/
structure DecryptionKey where
  p1 : Nat
  p2 : Nat
deriving DecidableEq

/-- Modelled from the spec: the NIZK that `ek` is a product of two safe
primes, bound to a domain (the party id bytes). -/
structure EncryptionKeyProof where
  ekModulus : Nat
  domain : List Nat
deriving DecidableEq

/-- Modelled from the spec: `ek.correctness_proof(dk, domain)` — a proof
over the key's modulus bound to the supplied domain bytes. -/
def EncryptionKey.correctness_proof (ek : EncryptionKey) (_dk : DecryptionKey)
    (domain : List Nat) : EncryptionKeyProof :=
  ⟨ek.modulus, domain⟩

/-- ZK setup (Pedersen parameters), modelled from the spec. -/
structure ZkSetup where
  nHat : Nat
  h1 : Nat
  h2 : Nat
deriving DecidableEq

/-- Proof that a ZK setup is honestly generated, modelled from the spec. -/
structure ZkSetupProof where
  val : Nat
deriving DecidableEq

/-- Structure `PartyKeyPair` as consumed by r1. -/
structure PartyKeyPair where
  ek : EncryptionKey
  dk : DecryptionKey
deriving DecidableEq

/-- Structure `PartyZkSetup` as consumed by r1. -/
structure PartyZkSetup where
  zkp : ZkSetup
  zkp_proof : ZkSetupProof
deriving DecidableEq

/-- Modelled from the spec: `PartyShareCounts::share_to_party_id` — walk
the per-party share counts until the share index falls inside a party's
range; `none` when the share index is out of range. -/
def share_to_party_id : List Nat → Nat → Option Nat
  | [], _ => none
  | c :: cs, s =>
    if s < c then some 0
    else (share_to_party_id cs (s - c)).map (· + 1)

/-- Modelled from the spec: `TypedUsize::to_bytes` for a party id. -/
def party_id_to_bytes (p : Nat) : List Nat := natToBytesLE 8 p

/-- Round-1 broadcast (src/gg20/keygen/r1.rs lines 18-25). -/
structure Bcast where
  y_i_commit : HashOutput
  ek : EncryptionKey
  ek_proof : EncryptionKeyProof
  zkp : ZkSetup
  zkp_proof : ZkSetupProof
deriving DecidableEq

/-- Modelled from the spec: the `bincode` serialization of a round-1
broadcast — any concrete self-delimiting encoder; field order as in the
struct. -/
def encodeBcast (b : Bcast) : List Nat :=
  natToBytesLE 32 b.y_i_commit.val ++ natToBytesLE 32 b.ek.modulus ++
    natToBytesLE 32 b.ek_proof.ekModulus ++
    (b.ek_proof.domain.length :: b.ek_proof.domain) ++
    natToBytesLE 32 b.zkp.nHat ++ natToBytesLE 32 b.zkp.h1 ++
    natToBytesLE 32 b.zkp.h2 ++ natToBytesLE 32 b.zkp_proof.val

/-- The round-2 handler state owned by the builder returned from r1
(src/gg20/keygen/r1.rs lines 72-84). -/
structure R2 where
  threshold : Nat
  party_share_counts : List Nat
  dk : DecryptionKey
  u_i_vss : Vss
  y_i_reveal : List Nat
deriving DecidableEq

/-- Payload of `RoundBuilder::new(round, bcast_out, p2ps_out)`. -/
structure RoundBuilder where
  round : R2
  bcast_out : Option (List Nat)
  p2ps_out : Option (List (Option (List Nat)))
deriving DecidableEq

/-- Embedding of `ProtocolBuilder`: `NotDone` carries the next round; `Done` is the
terminal variant (never produced by r1). -/
inductive ProtocolBuilder where
  | NotDone (rb : RoundBuilder)
  | Done
deriving DecidableEq

/-- Embedding of `start` (src/gg20/keygen/r1.rs lines 27-85): sample the
VSS polynomial, commit to `g·u_i` under `Y_I_COMMIT_TAG` and the share id,
build the Paillier-key correctness proof bound to the share's party id
(`?`-propagating a failed party lookup), serialize the broadcast, and
return `NotDone` with no p2p output. The VSS and reveal randomness of the
external samplers are passed explicitly. -/
def start (my_keygen_id : Nat) (threshold : Nat) (party_share_counts : List Nat)
    (keypair : PartyKeyPair) (zksetup : PartyZkSetup)
    (vssRand : Nat → Nat) (revealRand : List Nat) :
    TofnResult ProtocolBuilder :=
  let u_i_vss := Vss.new threshold vssRand
  let commitReveal := hash_commit Y_I_COMMIT_TAG my_keygen_id
    (k256_to_bytes (pointOfScalar u_i_vss.get_secret)) revealRand
  match share_to_party_id party_share_counts my_keygen_id with
  | none => .error .mk
  | some party_id =>
    let ek_proof := keypair.ek.correctness_proof keypair.dk
      (party_id_to_bytes party_id)
    let bcast_out := some (encodeBcast
      ⟨commitReveal.1, keypair.ek, ek_proof, zksetup.zkp, zksetup.zkp_proof⟩)
    .ok (.NotDone
      ⟨⟨threshold, party_share_counts, keypair.dk, u_i_vss, commitReveal.2⟩,
        bcast_out, none⟩)

end KeygenR1

/-- C7: keygen round 1 is broadcast-only: a successful `start` returns
`NotDone` with a round builder whose p2p output is `None` and whose
broadcast is exactly the serialization of `{ y_i_commit, ek, ek_proof,
zkp, zkp_proof }`, where `y_i_commit` commits (under `Y_I_COMMIT_TAG` and
the share id) to `g·u_i` for `u_i = f_i(0)` of a freshly sampled degree-`t`
VSS polynomial (with `t+1` coefficients), and `ek_proof` is bound to the
share's party id. -/
theorem keygen_r1_broadcast_only (my_keygen_id threshold : Nat)
    (counts : List Nat) (keypair : KeygenR1.PartyKeyPair)
    (zksetup : KeygenR1.PartyZkSetup) (vssRand : Nat → Nat)
    (revealRand : List Nat) (pb : KeygenR1.ProtocolBuilder)
    (h : KeygenR1.start my_keygen_id threshold counts keypair zksetup
      vssRand revealRand = .ok pb) :
    ∃ rb party_id, pb = .NotDone rb ∧
      rb.p2ps_out = none ∧
      KeygenR1.share_to_party_id counts my_keygen_id = some party_id ∧
      rb.bcast_out = some (KeygenR1.encodeBcast
        ⟨(KeygenR1.hash_commit KeygenR1.Y_I_COMMIT_TAG my_keygen_id
            (KeygenR1.k256_to_bytes (KeygenR1.pointOfScalar
              ((KeygenR1.Vss.new threshold vssRand).get_secret))) revealRand).1,
          keypair.ek,
          keypair.ek.correctness_proof keypair.dk
            (KeygenR1.party_id_to_bytes party_id),
          zksetup.zkp, zksetup.zkp_proof⟩) ∧
      (KeygenR1.Vss.new threshold vssRand).coeffs.length = threshold + 1 ∧
      rb.round.u_i_vss = KeygenR1.Vss.new threshold vssRand ∧
      rb.round.y_i_reveal = revealRand := by
  unfold KeygenR1.start at h
  cases hpid : KeygenR1.share_to_party_id counts my_keygen_id with
  | none =>
    rw [hpid] at h
    cases h
  | some party_id =>
    rw [hpid] at h
    injection h with h
    refine ⟨_, party_id, h.symm, rfl, rfl, rfl, ?_, rfl, rfl⟩
    simp [KeygenR1.Vss.new]

/-- C7 witness: a concrete successful start — one party holding one share,
share id 0 — returning `NotDone` with no p2p output. -/
theorem keygen_r1_broadcast_only_witness :
    ∃ rb party_id,
      (KeygenR1.ProtocolBuilder.NotDone
        ⟨⟨2, [1], ⟨11, 13⟩, KeygenR1.Vss.new 2 (fun i => i + 1), [9, 9]⟩,
          some (KeygenR1.encodeBcast
            ⟨(KeygenR1.hash_commit KeygenR1.Y_I_COMMIT_TAG 0
                (KeygenR1.k256_to_bytes (KeygenR1.pointOfScalar
                  ((KeygenR1.Vss.new 2 (fun i => i + 1)).get_secret))) [9, 9]).1,
              ⟨143⟩,
              KeygenR1.EncryptionKey.correctness_proof ⟨143⟩ ⟨11, 13⟩
                (KeygenR1.party_id_to_bytes 0),
              ⟨5, 6, 7⟩, ⟨8⟩⟩),
          none⟩) = .NotDone rb ∧
      rb.p2ps_out = none ∧
      KeygenR1.share_to_party_id [1] 0 = some party_id ∧
      rb.bcast_out = some (KeygenR1.encodeBcast
        ⟨(KeygenR1.hash_commit KeygenR1.Y_I_COMMIT_TAG 0
            (KeygenR1.k256_to_bytes (KeygenR1.pointOfScalar
              ((KeygenR1.Vss.new 2 (fun i => i + 1)).get_secret))) [9, 9]).1,
          KeygenR1.PartyKeyPair.ek ⟨⟨143⟩, ⟨11, 13⟩⟩,
          KeygenR1.EncryptionKey.correctness_proof
            (KeygenR1.PartyKeyPair.ek ⟨⟨143⟩, ⟨11, 13⟩⟩) ⟨11, 13⟩
            (KeygenR1.party_id_to_bytes party_id),
          ⟨5, 6, 7⟩, ⟨8⟩⟩) ∧
      (KeygenR1.Vss.new 2 (fun i => i + 1)).coeffs.length = 2 + 1 ∧
      rb.round.u_i_vss = KeygenR1.Vss.new 2 (fun i => i + 1) ∧
      rb.round.y_i_reveal = [9, 9] :=
  keygen_r1_broadcast_only 0 2 [1] ⟨⟨143⟩, ⟨11, 13⟩⟩ ⟨⟨5, 6, 7⟩, ⟨8⟩⟩
    (fun i => i + 1) [9, 9] _ rfl
